import Mathlib

/-!
Verification of the Composite Scoring and Hierarchical Ranking Engine of the
`zeta` repository (files `analise_portfolio.py` and `dashboard.py`).

The Python data frames are embedded as lists of record structures; pandas
column arithmetic is embedded as list traversals over `ℚ`.  Float `NaN`
(which pandas produces for `0.0/0.0` and propagates through arithmetic,
and which `nlargest` drops) is embedded as `none : Option ℚ`.
-/

namespace Zeta

/-! ### Generic list helpers (pandas primitives) -/

/-- `Series.min()`.  The `[]` case is never consulted: the pipelines only
take minima of nonempty metric columns. -/
def listMin : List ℚ → ℚ
  | [] => 0
  | a :: as => as.foldl min a

/-- `Series.max()`. -/
def listMax : List ℚ → ℚ
  | [] => 0
  | a :: as => as.foldl max a

/-- First-occurrence deduplication with an accumulator of already seen
elements; `dedupF [] l` lists the distinct group keys of `l` (the order in
which pandas emits groups is immaterial for every statement below, all of
which are key-indexed or order-insensitive). -/
def dedupF {α : Type} [DecidableEq α] (seen : List α) : List α → List α
  | [] => []
  | a :: as => if a ∈ seen then dedupF seen as else a :: dedupF (a :: seen) as

/-- Stable descending insertion by a rational sort key: an element is placed
after every earlier element whose key is at least as large (pandas
`nlargest(..., keep='first')` tie behaviour). -/
def insertDesc {α : Type} (f : α → ℚ) (a : α) : List α → List α
  | [] => [a]
  | b :: bs => if f b ≤ f a then a :: b :: bs else b :: insertDesc f a bs

/-- Stable descending sort by a rational key. -/
def sortDesc {α : Type} (f : α → ℚ) : List α → List α
  | [] => []
  | a :: as => insertDesc f a (sortDesc f as)

/-- `DataFrame.nlargest n` on a score column that may contain `NaN`
(`none`): pandas first drops the `NaN` rows, then sorts descending keeping
first occurrences, then takes `n`. -/
def nlargestO {α : Type} (n : ℕ) (f : α → Option ℚ) (l : List α) : List α :=
  (sortDesc (fun a => (f a).getD 0) (l.filter (fun a => (f a).isSome))).take n

/-! ### Lemmas on the helpers -/

theorem foldlMin_le (as : List ℚ) : ∀ a : ℚ, as.foldl min a ≤ a := by
  induction as with
  | nil => intro a; simp
  | cons b bs ih =>
    intro a
    calc List.foldl min (min a b) bs ≤ min a b := ih _
    _ ≤ a := min_le_left _ _

theorem foldlMin_le_mem (as : List ℚ) : ∀ a v, v ∈ as → as.foldl min a ≤ v := by
  induction as with
  | nil => intro a v hv; cases hv
  | cons b bs ih =>
    intro a v hv
    rcases List.mem_cons.mp hv with h | h
    · subst h
      calc List.foldl min (min a v) bs ≤ min a v := foldlMin_le bs _
      _ ≤ v := min_le_right _ _
    · exact ih _ v h

theorem listMin_le {l : List ℚ} {v : ℚ} (hv : v ∈ l) : listMin l ≤ v := by
  cases l with
  | nil => cases hv
  | cons a as =>
    rcases List.mem_cons.mp hv with h | h
    · subst h; exact foldlMin_le as v
    · exact foldlMin_le_mem as a v h

theorem le_foldlMax (as : List ℚ) : ∀ a : ℚ, a ≤ as.foldl max a := by
  induction as with
  | nil => intro a; simp
  | cons b bs ih =>
    intro a
    calc a ≤ max a b := le_max_left _ _
    _ ≤ List.foldl max (max a b) bs := ih _

theorem mem_le_foldlMax (as : List ℚ) : ∀ a v, v ∈ as → v ≤ as.foldl max a := by
  induction as with
  | nil => intro a v hv; cases hv
  | cons b bs ih =>
    intro a v hv
    rcases List.mem_cons.mp hv with h | h
    · subst h
      calc v ≤ max a v := le_max_right _ _
      _ ≤ List.foldl max (max a v) bs := le_foldlMax bs _
    · exact ih _ v h

theorem le_listMax {l : List ℚ} {v : ℚ} (hv : v ∈ l) : v ≤ listMax l := by
  cases l with
  | nil => cases hv
  | cons a as =>
    rcases List.mem_cons.mp hv with h | h
    · subst h; exact le_foldlMax as v
    · exact mem_le_foldlMax as a v h

theorem foldlMin_const (as : List ℚ) : ∀ a, (∀ x ∈ as, x = a) → as.foldl min a = a := by
  induction as with
  | nil => intro a _; rfl
  | cons b bs ih =>
    intro a h
    have hb : b = a := h b (by simp)
    subst hb
    simp only [List.foldl, min_self]
    exact ih b fun x hx => h x (by simp [hx])

theorem foldlMax_const (as : List ℚ) : ∀ a, (∀ x ∈ as, x = a) → as.foldl max a = a := by
  induction as with
  | nil => intro a _; rfl
  | cons b bs ih =>
    intro a h
    have hb : b = a := h b (by simp)
    subst hb
    simp only [List.foldl, max_self]
    exact ih b fun x hx => h x (by simp [hx])

theorem listMin_const {l : List ℚ} {k : ℚ} (h : ∀ x ∈ l, x = k) (hne : l ≠ []) :
    listMin l = k := by
  cases l with
  | nil => cases hne rfl
  | cons a as =>
    have ha : a = k := h a (by simp)
    subst ha
    exact foldlMin_const as a fun x hx => h x (by simp [hx])

theorem listMax_const {l : List ℚ} {k : ℚ} (h : ∀ x ∈ l, x = k) (hne : l ≠ []) :
    listMax l = k := by
  cases l with
  | nil => cases hne rfl
  | cons a as =>
    have ha : a = k := h a (by simp)
    subst ha
    exact foldlMax_const as a fun x hx => h x (by simp [hx])

theorem mem_insertDesc {α : Type} (f : α → ℚ) (a x : α) :
    ∀ l : List α, x ∈ insertDesc f a l ↔ x = a ∨ x ∈ l := by
  intro l
  induction l with
  | nil => simp [insertDesc]
  | cons b bs ih =>
    by_cases h : f b ≤ f a
    · simp [insertDesc, h]
    · simp only [insertDesc, if_neg h, List.mem_cons, ih]
      tauto

theorem length_insertDesc {α : Type} (f : α → ℚ) (a : α) :
    ∀ l : List α, (insertDesc f a l).length = l.length + 1 := by
  intro l
  induction l with
  | nil => rfl
  | cons b bs ih =>
    by_cases h : f b ≤ f a
    · simp [insertDesc, h]
    · simp [insertDesc, h, ih]

theorem pairwise_insertDesc {α : Type} (f : α → ℚ) (a : α) (l : List α)
    (hl : l.Pairwise (fun x y => f y ≤ f x)) :
    (insertDesc f a l).Pairwise (fun x y => f y ≤ f x) := by
  induction l with
  | nil => simp [insertDesc]
  | cons b bs ih =>
    rcases List.pairwise_cons.mp hl with ⟨hb, hbs⟩
    by_cases h : f b ≤ f a
    · rw [insertDesc, if_pos h]
      refine List.pairwise_cons.mpr ⟨?_, hl⟩
      intro x hx
      rcases List.mem_cons.mp hx with hx | hx
      · subst hx; exact h
      · exact le_trans (hb x hx) h
    · rw [insertDesc, if_neg h]
      refine List.pairwise_cons.mpr ⟨?_, ih hbs⟩
      intro x hx
      rcases (mem_insertDesc f a x bs).mp hx with hx | hx
      · subst hx; exact le_of_not_le h
      · exact hb x hx

theorem mem_sortDesc {α : Type} (f : α → ℚ) (x : α) :
    ∀ l : List α, x ∈ sortDesc f l ↔ x ∈ l := by
  intro l
  induction l with
  | nil => simp [sortDesc]
  | cons a as ih =>
    simp only [sortDesc, mem_insertDesc, List.mem_cons, ih]

theorem length_sortDesc {α : Type} (f : α → ℚ) :
    ∀ l : List α, (sortDesc f l).length = l.length := by
  intro l
  induction l with
  | nil => rfl
  | cons a as ih => simp [sortDesc, length_insertDesc, ih]

theorem pairwise_sortDesc {α : Type} (f : α → ℚ) :
    ∀ l : List α, (sortDesc f l).Pairwise (fun x y => f y ≤ f x) := by
  intro l
  induction l with
  | nil => simp [sortDesc]
  | cons a as ih => exact pairwise_insertDesc f a _ ih

theorem nlargestO_pairwise {α : Type} (n : ℕ) (f : α → Option ℚ) (l : List α) :
    (nlargestO n f l).Pairwise (fun x y => (f y).getD 0 ≤ (f x).getD 0) :=
  List.Pairwise.sublist (List.take_sublist n _) (pairwise_sortDesc _ _)

theorem nlargestO_isSome {α : Type} (n : ℕ) (f : α → Option ℚ) (l : List α) :
    ∀ x ∈ nlargestO n f l, (f x).isSome := by
  intro x hx
  have hx' : x ∈ sortDesc (fun a => (f a).getD 0) (l.filter (fun a => (f a).isSome)) :=
    List.take_subset n _ hx
  have := (mem_sortDesc _ x _).mp hx'
  exact (List.mem_filter.mp this).2

theorem nlargestO_length {α : Type} (n : ℕ) (f : α → Option ℚ) (l : List α) :
    (nlargestO n f l).length = min n (l.filter (fun a => (f a).isSome)).length := by
  simp [nlargestO, List.length_take, length_sortDesc]

/-! ### Margin conversion (`carregar_dados`)

`vendas_df['MARGEM'].str.rstrip('%').astype('float') / 100.0`
(`analise_portfolio.py:81`, `dashboard.py:94`). -/

/-- `str.rstrip('%')`: drop every trailing percent sign. -/
def rstripPercent (s : String) : String :=
  String.mk ((s.data.reverse.dropWhile (fun c => c == '%')).reverse)

/-- Whether the last character of the string is a percent sign. -/
def endsWithPercent (s : String) : Bool :=
  s.data.getLast? == some '%'

/-- Value of a digit string, most significant first. -/
def digitsVal (l : List Char) : ℕ :=
  l.foldl (fun n c => 10 * n + (c.toNat - 48)) 0

/-- Split a character list at the first dot, if any. -/
def splitDot : List Char → List Char × Option (List Char)
  | [] => ([], none)
  | c :: r =>
    if c = '.' then ([], some r)
    else
      let p := splitDot r
      (c :: p.1, p.2)

/-- Unsigned fixed-point decimal: digits with an optional fractional part. -/
def parseFixed (l : List Char) : Option ℚ :=
  match splitDot l with
  | (intp, none) =>
    if intp ≠ [] ∧ intp.all Char.isDigit then some (digitsVal intp) else none
  | (intp, some fracp) =>
    if (intp ≠ [] ∨ fracp ≠ []) ∧ intp.all Char.isDigit ∧ fracp.all Char.isDigit then
      some ((digitsVal intp : ℚ) + (digitsVal fracp : ℚ) / 10 ^ fracp.length)
    else none

/-- `astype('float')` applied to one cell, modelled for finite decimal
literals (optional sign, digits, optional fractional part); a string
outside this grammar raises `ValueError`, embedded as `none`. -/
def parseFloat (s : String) : Option ℚ :=
  match s.data with
  | '-' :: r => (parseFixed r).map (fun q => -q)
  | '+' :: r => parseFixed r
  | r => parseFixed r

/-- Conversion of one `MARGEM` cell: strip trailing percent signs, parse as
a float (an unparseable remainder is an error surfaced to the caller),
divide by 100. -/
def convertMargem (s : String) : Option ℚ :=
  (parseFloat (rstripPercent s)).map (fun q => q / 100)

theorem data_append (a b : String) : (a ++ b).data = a.data ++ b.data := rfl

theorem rstripPercent_append (x : String) (hx : endsWithPercent x = false) :
    rstripPercent (x ++ "%") = x := by
  have hdata : (x ++ "%").data = x.data ++ ['%'] := by
    rw [data_append]
  have hlast : x.data.getLast? ≠ some '%' := by
    intro h
    rw [endsWithPercent, h] at hx
    simp at hx
  have hdrop : List.dropWhile (fun c => c == '%') x.data.reverse = x.data.reverse := by
    cases hrev : x.data.reverse with
    | nil => rfl
    | cons c t =>
      have hc : c ≠ '%' := by
        intro hc
        apply hlast
        rw [← List.head?_reverse, hrev, hc]
        rfl
      rw [List.dropWhile_cons, if_neg]
      simp [hc]
  unfold rstripPercent
  rw [hdata, List.reverse_append]
  have hstep : List.dropWhile (fun c => c == '%') (['%'].reverse ++ x.data.reverse) =
      List.dropWhile (fun c => c == '%') x.data.reverse := by
    show List.dropWhile (fun c => c == '%') ('%' :: x.data.reverse) = _
    rw [List.dropWhile_cons, if_pos]
    rfl
  rw [hstep, hdrop, List.reverse_reverse]

/-- C3 counterexample: the string `"12.5"` does not end in a percent sign,
yet the conversion succeeds (yielding `0.125`) instead of failing as the
claim requires for strings that do not end in `%`. -/
theorem C3_counterexample :
    endsWithPercent "12.5" = false ∧ convertMargem "12.5" = some (1/8) := by
  constructor
  · decide
  · show (parseFloat (rstripPercent "12.5")).map (fun q => q / 100) = some (1/8)
    have h1 : rstripPercent "12.5" = "12.5" := by decide
    rw [h1]
    show (parseFixed "12.5".data).map (fun q => q / 100) = some (1/8)
    have h2 : splitDot "12.5".data = (['1', '2'], some ['5']) := by decide
    have e1 : digitsVal ['1', '2'] = 12 := by decide
    have e2 : digitsVal ['5'] = 5 := by decide
    simp only [parseFixed, h2, e1, e2]
    rw [if_pos (by decide)]
    norm_num

/-- C3 amended: a well-formed percentage string `"x%"` converts to `x/100`,
and a string whose remainder after stripping trailing `%` signs does not
parse as a number fails with the error surfaced; however a bare numeric
string with no trailing `%` also converts to `x/100` instead of failing. -/
theorem C3_margem_amended :
    (∀ (x : String) (q : ℚ), parseFloat x = some q → endsWithPercent x = false →
      convertMargem (x ++ "%") = some (q / 100)) ∧
    (∀ s : String, parseFloat (rstripPercent s) = none → convertMargem s = none) := by
  constructor
  · intro x q hq hx
    rw [convertMargem, rstripPercent_append x hx, hq]
    rfl
  · intro s hs
    rw [convertMargem, hs]
    rfl

/-- Concrete instance of `C3_margem_amended`. -/
theorem C3_margem_amended_witness :
    convertMargem ("12.5" ++ "%") = some ((25/2 : ℚ) / 100) ∧ convertMargem "abc" = none := by
  constructor
  · refine C3_margem_amended.1 "12.5" (25/2) ?_ (by decide)
    show parseFixed "12.5".data = some (25/2)
    have h2 : splitDot "12.5".data = (['1', '2'], some ['5']) := by decide
    have e1 : digitsVal ['1', '2'] = 12 := by decide
    have e2 : digitsVal ['5'] = 5 := by decide
    simp only [parseFixed, h2, e1, e2]
    rw [if_pos (by decide)]
    norm_num
  · refine C3_margem_amended.2 "abc" ?_
    decide

/-! ### Data model

One record per row of `bd_vendas.xlsx` / `bd_clientes.xlsx` after the
column-name uppercasing and margin conversion of `carregar_dados`. -/

/-- A row of the sales table (`VENDA_VALOR` and the converted `MARGEM`). -/
structure Venda where
  idCliente : ℕ
  idSku : ℕ
  nomeSku : String
  sub : String
  venda : ℚ
  margem : ℚ
deriving DecidableEq

/-- A row of the customer table. -/
structure Cliente where
  idCliente : ℕ
  canal : String
deriving DecidableEq

/-- A sales row after the left join: `CANAL` is `none` when the
`ID_CLIENTE` had no match (pandas fills `NaN`). -/
structure Enriched where
  v : Venda
  canal : Option String
deriving DecidableEq

/-! ### Record joiner

`pd.merge(vendas_df, clientes_df, on='ID_CLIENTE', how='left')`
(`analise_portfolio.py:103,145`, `dashboard.py:97`): one output row per
matching (venda, cliente) pair, and one `NaN`-channel row for a venda with
no matching cliente. -/

def mergeLeft (vendas : List Venda) (clientes : List Cliente) : List Enriched :=
  vendas.flatMap fun v =>
    match clientes.filter (fun c => c.idCliente == v.idCliente) with
    | [] => [Enriched.mk v none]
    | cs => cs.map fun c => Enriched.mk v (some c.canal)

theorem mergeLeft_cons (v : Venda) (vs : List Venda) (clientes : List Cliente) :
    mergeLeft (v :: vs) clientes =
      (match clientes.filter (fun c => c.idCliente == v.idCliente) with
       | [] => [Enriched.mk v none]
       | cs => cs.map fun c => Enriched.mk v (some c.canal)) ++ mergeLeft vs clientes := rfl

theorem filter_key_nodup (clientes : List Cliente) (k : ℕ)
    (h : (clientes.map fun c => c.idCliente).Nodup) :
    clientes.filter (fun c => c.idCliente == k) =
      (clientes.find? fun c => c.idCliente == k).toList := by
  induction clientes with
  | nil => rfl
  | cons c cs ih =>
    rw [List.map_cons, List.nodup_cons] at h
    by_cases hc : (c.idCliente == k) = true
    · have hk : c.idCliente = k := eq_of_beq hc
      have hnil : cs.filter (fun x => x.idCliente == k) = [] := by
        refine List.filter_eq_nil_iff.mpr fun x hx hbeq => ?_
        have hxk : x.idCliente = k := eq_of_beq hbeq
        exact h.1 (List.mem_map.mpr ⟨x, hx, by rw [hxk, hk]⟩)
      rw [List.filter_cons, if_pos hc, hnil, List.find?_cons, hc]
      rfl
    · have hcf : (c.idCliente == k) = false := Bool.eq_false_iff.mpr hc
      rw [List.filter_cons, if_neg hc, List.find?_cons, hcf]
      exact ih h.2

/-- C6: under the precondition that `ID_CLIENTE` is a unique key of the
customer table, the left join emits exactly one row per transaction, in
order: the transaction enriched with its (unique) customer's channel, or
with a missing channel when there is none. -/
theorem C6_left_join_cardinality (vendas : List Venda) (clientes : List Cliente)
    (hkey : (clientes.map fun c => c.idCliente).Nodup) :
    mergeLeft vendas clientes =
      vendas.map fun v =>
        Enriched.mk v ((clientes.find? fun c => c.idCliente == v.idCliente).map
          fun c => c.canal) := by
  induction vendas with
  | nil => rfl
  | cons v vs ih =>
    rw [mergeLeft_cons, ih, List.map_cons]
    rw [filter_key_nodup clientes v.idCliente hkey]
    cases hf : clientes.find? fun c => c.idCliente == v.idCliente with
    | none => rfl
    | some c => rfl

/-- Concrete instance of `C6_left_join_cardinality`: two transactions, one
matched and one unmatched, produce exactly two enriched rows. -/
theorem C6_left_join_cardinality_witness :
    mergeLeft [Venda.mk 1 10 "p" "S" 5 2, Venda.mk 3 11 "q" "S" 7 2]
        [Cliente.mk 1 "A", Cliente.mk 2 "B"] =
      [Enriched.mk (Venda.mk 1 10 "p" "S" 5 2) (some "A"),
       Enriched.mk (Venda.mk 3 11 "q" "S" 7 2) none] := by
  rw [C6_left_join_cardinality _ _ (by decide)]
  decide

/-! ### Group aggregation

`df.groupby(['CANAL', 'SUBCATEGORIA_SKU']).agg({'ID_SKU': 'nunique',
'ID_CLIENTE': 'nunique', 'VENDA_VALOR': 'sum', 'MARGEM': 'mean'})`
(`analise_portfolio.py:106`, `dashboard.py:107`).  pandas drops rows whose
grouping key contains `NaN` (a missing channel); the order in which groups
are emitted is immaterial below. -/

structure AggRow where
  canal : String
  sub : String
  skuCount : ℕ
  cliCount : ℕ
  venda : ℚ
  margem : ℚ
deriving DecidableEq

/-- The rows of one `(CANAL, SUBCATEGORIA_SKU)` group (also the filter mask
`(df['CANAL'] == canal) & (df['SUBCATEGORIA_SKU'] == subcategoria)` of
`selecionar_top_skus` and `update_skus_table`). -/
def groupRowsC (rows : List Enriched) (c s : String) : List Enriched :=
  rows.filter fun r => decide (r.canal = some c ∧ r.v.sub = s)

/-- Distinct `(CANAL, SUBCATEGORIA_SKU)` keys present in the data; a row
with a missing channel contributes no key. -/
def subcatKeys (rows : List Enriched) : List (String × String) :=
  dedupF [] (rows.filterMap fun r => r.canal.map fun c => (c, r.v.sub))

def aggRowOf (rows : List Enriched) (c s : String) : AggRow :=
  let g := groupRowsC rows c s
  { canal := c, sub := s
    skuCount := (dedupF [] (g.map fun r => r.v.idSku)).length
    cliCount := (dedupF [] (g.map fun r => r.v.idCliente)).length
    venda := (g.map fun r => r.v.venda).sum
    margem := (g.map fun r => r.v.margem).sum / (g.length : ℚ) }

def aggregateSubcat (rows : List Enriched) : List AggRow :=
  (subcatKeys rows).map fun k => aggRowOf rows k.1 k.2

/-- Modelled from the spec: the channel-agnostic aggregation of §3 and the
§8 scenario ("if a channel-agnostic aggregation is requested") has no call
site under `src/`; its group row set is a subcategory-only filter, with no
channel key to drop rows on. -/
def groupRowsSub (rows : List Enriched) (s : String) : List Enriched :=
  rows.filter fun r => decide (r.v.sub = s)

/-! ### Normalization -/

/-- dashboard.py guarded rescale (`dashboard.py:120-123`, `469-475`):
`if max_val > min_val: (v - min)/(max - min) else: 1.0`. -/
def normGuarded (mn mx v : ℚ) : ℚ :=
  if mn < mx then (v - mn) / (mx - mn) else 1

/-- analise_portfolio.py unguarded rescale `(v - min)/(max - min)`
(`analise_portfolio.py:115,164`): when `max = min` the float computation is
`0.0/0.0 = NaN` (at every use site `min ≤ v ≤ max`, so the numerator is
zero too), embedded as `none`. -/
def normUnguarded (mn mx v : ℚ) : Option ℚ :=
  if mx - mn = 0 then none else some ((v - mn) / (mx - mn))

/-- The metric column of one channel's groups. -/
def channelVals (agg : List AggRow) (c : String) (col : AggRow → ℚ) : List ℚ :=
  (agg.filter fun a => decide (a.canal = c)).map col

/-- One normalized cell of dashboard `calcular_metricas_subcategoria`:
min/max are taken over the groups of the row's own channel. -/
def normColD (agg : List AggRow) (c : String) (col : AggRow → ℚ) (v : ℚ) : ℚ :=
  normGuarded (listMin (channelVals agg c col)) (listMax (channelVals agg c col)) v

/-- One normalized cell of analise_portfolio `calcular_metricas_subcategoria`:
min/max are taken over all groups of all channels together. -/
def normColA (agg : List AggRow) (col : AggRow → ℚ) (v : ℚ) : Option ℚ :=
  normUnguarded (listMin (agg.map col)) (listMax (agg.map col)) v

/-! ### Scoring -/

def PESO_POPULARIDADE : ℚ := 3/10

def PESO_FATURAMENTO : ℚ := 4/10

def PESO_MARGEM : ℚ := 3/10

/-- analise_portfolio score (`analise_portfolio.py:118-122,167-171`), with
float-`NaN` propagation: any undefined normalized input makes the score
undefined. -/
def scoreA (cli venda marg : Option ℚ) : Option ℚ :=
  match cli, venda, marg with
  | some c, some v, some m =>
    some (c * PESO_POPULARIDADE + v * PESO_FATURAMENTO + m * PESO_MARGEM)
  | _, _, _ => none

/-- dashboard score with literal weights (`dashboard.py:126-130,478-482`). -/
def scoreD (venda cli marg : ℚ) : ℚ :=
  venda * (4/10) + cli * (3/10) + marg * (3/10)

/-- The §4.4 spec formula, written from the spec's words for comparison
with the implementations. -/
def compositeFormula (revenue popularity margin : ℚ) : ℚ :=
  revenue * (4/10) + popularity * (3/10) + margin * (3/10)

/-! ### The two channel→subcategory pipelines -/

structure MetricaA extends AggRow where
  skuNorm : Option ℚ
  cliNorm : Option ℚ
  vendaNorm : Option ℚ
  margemNorm : Option ℚ
  score : Option ℚ
deriving DecidableEq

def metricaA_of (agg : List AggRow) (a : AggRow) : MetricaA :=
  let cn := normColA agg (fun x => (x.cliCount : ℚ)) (a.cliCount : ℚ)
  let vn := normColA agg (fun x => x.venda) a.venda
  let mn := normColA agg (fun x => x.margem) a.margem
  { toAggRow := a
    skuNorm := normColA agg (fun x => (x.skuCount : ℚ)) (a.skuCount : ℚ)
    cliNorm := cn
    vendaNorm := vn
    margemNorm := mn
    score := scoreA cn vn mn }

/-- `calcular_metricas_subcategoria` of `analise_portfolio.py`. -/
def analiseMetricas (vendas : List Venda) (clientes : List Cliente) : List MetricaA :=
  (aggregateSubcat (mergeLeft vendas clientes)).map
    (metricaA_of (aggregateSubcat (mergeLeft vendas clientes)))

structure MetricaD extends AggRow where
  skuNorm : ℚ
  cliNorm : ℚ
  vendaNorm : ℚ
  margemNorm : ℚ
  score : ℚ
deriving DecidableEq

def metricaD_of (agg : List AggRow) (a : AggRow) : MetricaD :=
  let cn := normColD agg a.canal (fun x => (x.cliCount : ℚ)) (a.cliCount : ℚ)
  let vn := normColD agg a.canal (fun x => x.venda) a.venda
  let mn := normColD agg a.canal (fun x => x.margem) a.margem
  { toAggRow := a
    skuNorm := normColD agg a.canal (fun x => (x.skuCount : ℚ)) (a.skuCount : ℚ)
    cliNorm := cn
    vendaNorm := vn
    margemNorm := mn
    score := scoreD vn cn mn }

/-- Normalization-and-scoring stage of dashboard
`calcular_metricas_subcategoria`, applied to an aggregated table. -/
def addNormScoreD (agg : List AggRow) : List MetricaD :=
  agg.map (metricaD_of agg)

/-- `calcular_metricas_subcategoria` of `dashboard.py`. -/
def dashboardMetricas (vendas : List Venda) (clientes : List Cliente) : List MetricaD :=
  addNormScoreD (aggregateSubcat (mergeLeft vendas clientes))

/-- Top-5 subcategory selection of `analise_portfolio.main`
(`metricas[metricas['CANAL'] == canal].nlargest(5, 'SCORE')`). -/
def top5Subcats (vendas : List Venda) (clientes : List Cliente) (c : String) : List MetricaA :=
  nlargestO 5 (fun m => m.score)
    ((analiseMetricas vendas clientes).filter fun m => decide (m.canal = c))

/-! ### The two subcategory→SKU pipelines -/

structure SkuAgg where
  idSku : ℕ
  nomeSku : String
  cliCount : ℕ
  venda : ℚ
  margem : ℚ
deriving DecidableEq

def skuGroupRows (rows : List Enriched) (id : ℕ) (nome : String) : List Enriched :=
  rows.filter fun r => decide (r.v.idSku = id ∧ r.v.nomeSku = nome)

def skuAggOf (rows : List Enriched) (id : ℕ) (nome : String) : SkuAgg :=
  let g := skuGroupRows rows id nome
  { idSku := id
    nomeSku := nome
    cliCount := (dedupF [] (g.map fun r => r.v.idCliente)).length
    venda := (g.map fun r => r.v.venda).sum
    margem := (g.map fun r => r.v.margem).sum / (g.length : ℚ) }

/-- `groupby(['ID_SKU', 'NOME_SKU']).agg(...)` of `selecionar_top_skus`. -/
def aggregateSku (rows : List Enriched) : List SkuAgg :=
  (dedupF [] (rows.map fun r => (r.v.idSku, r.v.nomeSku))).map fun k => skuAggOf rows k.1 k.2

structure SkuMetricaA extends SkuAgg where
  cliNorm : Option ℚ
  vendaNorm : Option ℚ
  margemNorm : Option ℚ
  score : Option ℚ
deriving DecidableEq

def normColSkuA (agg : List SkuAgg) (col : SkuAgg → ℚ) (v : ℚ) : Option ℚ :=
  normUnguarded (listMin (agg.map col)) (listMax (agg.map col)) v

def skuMetricaA_of (agg : List SkuAgg) (a : SkuAgg) : SkuMetricaA :=
  let cn := normColSkuA agg (fun x => (x.cliCount : ℚ)) (a.cliCount : ℚ)
  let vn := normColSkuA agg (fun x => x.venda) a.venda
  let mn := normColSkuA agg (fun x => x.margem) a.margem
  { toSkuAgg := a
    cliNorm := cn
    vendaNorm := vn
    margemNorm := mn
    score := scoreA cn vn mn }

/-- Per-`(canal, subcategoria)` metric table of `selecionar_top_skus`. -/
def skuMetricasA (rows : List Enriched) (c s : String) : List SkuMetricaA :=
  (aggregateSku (groupRowsC rows c s)).map (skuMetricaA_of (aggregateSku (groupRowsC rows c s)))

/-- `skus.nlargest(10, 'SCORE')` then `list(zip(ID_SKU, NOME_SKU))`
(`analise_portfolio.py:174-175`). -/
def topSkusA (rows : List Enriched) (c s : String) : List (ℕ × String) :=
  (nlargestO 10 (fun m => m.score) (skuMetricasA rows c s)).map fun m => (m.idSku, m.nomeSku)

structure SkuRowD where
  idSku : ℕ
  cliCount : ℕ
  venda : ℚ
  margem : ℚ
  cliNorm : ℚ
  vendaNorm : ℚ
  margemNorm : ℚ
  score : ℚ
deriving DecidableEq

structure SkuAggD where
  idSku : ℕ
  cliCount : ℕ
  venda : ℚ
  margem : ℚ
deriving DecidableEq

def skuAggD_of (rows : List Enriched) (id : ℕ) : SkuAggD :=
  let g := rows.filter fun r => decide (r.v.idSku = id)
  { idSku := id
    cliCount := (dedupF [] (g.map fun r => r.v.idCliente)).length
    venda := (g.map fun r => r.v.venda).sum
    margem := (g.map fun r => r.v.margem).sum / (g.length : ℚ) }

/-- `groupby('ID_SKU').agg(...)` of `update_skus_table`. -/
def aggregateSkuD (rows : List Enriched) : List SkuAggD :=
  (dedupF [] (rows.map fun r => r.v.idSku)).map fun id => skuAggD_of rows id

def skuRowD_of (agg : List SkuAggD) (a : SkuAggD) : SkuRowD :=
  let cn := normGuarded (listMin (agg.map fun x => (x.cliCount : ℚ)))
    (listMax (agg.map fun x => (x.cliCount : ℚ))) (a.cliCount : ℚ)
  let vn := normGuarded (listMin (agg.map fun x => x.venda))
    (listMax (agg.map fun x => x.venda)) a.venda
  let mn := normGuarded (listMin (agg.map fun x => x.margem))
    (listMax (agg.map fun x => x.margem)) a.margem
  { idSku := a.idSku
    cliCount := a.cliCount
    venda := a.venda
    margem := a.margem
    cliNorm := cn
    vendaNorm := vn
    margemNorm := mn
    score := scoreD vn cn mn }

/-- Metric table of `update_skus_table` before `nlargest`
(`dashboard.py:461-482`). -/
def skuTableD (rows : List Enriched) (c s : String) : List SkuRowD :=
  (aggregateSkuD (groupRowsC rows c s)).map (skuRowD_of (aggregateSkuD (groupRowsC rows c s)))

/-- `df_skus.nlargest(10, 'SCORE')` (`dashboard.py:485`). -/
def topSkusD (rows : List Enriched) (c s : String) : List SkuRowD :=
  nlargestO 10 (fun r => some r.score) (skuTableD rows c s)

/-! ### C4: left-join semantics of an unmatched transaction -/

/-- C4: a transaction whose `ID_CLIENTE` matches no customer joins into one
row with a missing channel; that row lies in no `(channel, subcategory)`
group — prepending it leaves every channel-partitioned aggregate unchanged
— yet it is one of the rows over which the channel-agnostic aggregate of
its own subcategory is computed. -/
theorem C4_unmatched_transaction (vendas : List Venda) (clientes : List Cliente) (v : Venda)
    (hv : v ∈ vendas) (hnm : ∀ c ∈ clientes, c.idCliente ≠ v.idCliente) :
    Enriched.mk v none ∈ mergeLeft vendas clientes ∧
    (∀ c s, Enriched.mk v none ∉ groupRowsC (mergeLeft vendas clientes) c s) ∧
    (∀ rows : List Enriched, aggregateSubcat (Enriched.mk v none :: rows) = aggregateSubcat rows) ∧
    Enriched.mk v none ∈ groupRowsSub (mergeLeft vendas clientes) v.sub := by
  have hfil : clientes.filter (fun c => c.idCliente == v.idCliente) = [] :=
    List.filter_eq_nil_iff.mpr fun c hc hbeq => hnm c hc (eq_of_beq hbeq)
  have hmem : Enriched.mk v none ∈ mergeLeft vendas clientes := by
    refine List.mem_flatMap.mpr ⟨v, hv, ?_⟩
    rw [hfil]
    exact List.mem_singleton.mpr rfl
  refine ⟨hmem, ?_, ?_, ?_⟩
  · intro c s hmem'
    have := (List.mem_filter.mp hmem').2
    simp at this
  · intro rows
    have hkeys : subcatKeys (Enriched.mk v none :: rows) = subcatKeys rows := rfl
    have hgroup : ∀ c s, groupRowsC (Enriched.mk v none :: rows) c s = groupRowsC rows c s :=
      fun c s => rfl
    rw [aggregateSubcat, aggregateSubcat, hkeys]
    refine List.map_congr_left fun k _ => ?_
    rw [aggRowOf, aggRowOf, hgroup k.1 k.2]
  · refine List.mem_filter.mpr ⟨hmem, by simp⟩

/-- Concrete instance of `C4_unmatched_transaction`: the single transaction
of customer 3 has no customer row, joins with a missing channel, enters no
channel-partitioned group, and still sits in its subcategory's
channel-agnostic group. -/
theorem C4_unmatched_transaction_witness :
    Enriched.mk (Venda.mk 3 11 "q" "S" 7 2) none ∈
        mergeLeft [Venda.mk 3 11 "q" "S" 7 2] [Cliente.mk 1 "A"] ∧
    (∀ c s, Enriched.mk (Venda.mk 3 11 "q" "S" 7 2) none ∉
        groupRowsC (mergeLeft [Venda.mk 3 11 "q" "S" 7 2] [Cliente.mk 1 "A"]) c s) ∧
    (∀ rows : List Enriched,
        aggregateSubcat (Enriched.mk (Venda.mk 3 11 "q" "S" 7 2) none :: rows) =
          aggregateSubcat rows) ∧
    Enriched.mk (Venda.mk 3 11 "q" "S" 7 2) none ∈
        groupRowsSub (mergeLeft [Venda.mk 3 11 "q" "S" 7 2] [Cliente.mk 1 "A"]) "S" :=
  C4_unmatched_transaction [Venda.mk 3 11 "q" "S" 7 2] [Cliente.mk 1 "A"]
    (Venda.mk 3 11 "q" "S" 7 2) (by decide) (by decide)

/-! ### Normalization lemmas -/

theorem normGuarded_degenerate (mn v : ℚ) : normGuarded mn mn v = 1 := by
  rw [normGuarded, if_neg (lt_irrefl mn)]

theorem normGuarded_bounds {mn mx v : ℚ} (h1 : mn ≤ v) (h2 : v ≤ mx) :
    0 ≤ normGuarded mn mx v ∧ normGuarded mn mx v ≤ 1 := by
  rw [normGuarded]
  by_cases h : mn < mx
  · rw [if_pos h]
    constructor
    · exact div_nonneg (by linarith) (by linarith)
    · rw [div_le_one (by linarith)]
      linarith
  · rw [if_neg h]
    norm_num

theorem normGuarded_max {mn mx : ℚ} (h : mn < mx) : normGuarded mn mx mx = 1 := by
  rw [normGuarded, if_pos h, div_self]
  exact ne_of_gt (by linarith)

theorem normGuarded_min {mn mx : ℚ} (h : mn < mx) : normGuarded mn mx mn = 0 := by
  rw [normGuarded, if_pos h, sub_self, zero_div]

theorem normUnguarded_bounds {mn mx v q : ℚ} (h1 : mn ≤ v) (h2 : v ≤ mx)
    (h : normUnguarded mn mx v = some q) : 0 ≤ q ∧ q ≤ 1 := by
  rw [normUnguarded] at h
  by_cases hd : mx - mn = 0
  · rw [if_pos hd] at h
    cases h
  · rw [if_neg hd] at h
    injection h with h
    subst h
    have hlt : mn < mx := lt_of_le_of_ne (le_trans h1 h2) fun he => hd (by rw [he, sub_self])
    constructor
    · exact div_nonneg (by linarith) (by linarith)
    · rw [div_le_one (by linarith)]
      linarith

theorem normUnguarded_max {mn mx : ℚ} (h : mn < mx) : normUnguarded mn mx mx = some 1 := by
  rw [normUnguarded, if_neg (sub_ne_zero_of_ne (ne_of_gt h)), div_self
    (sub_ne_zero_of_ne (ne_of_gt h))]

theorem normUnguarded_min {mn mx : ℚ} (h : mn < mx) : normUnguarded mn mx mn = some 0 := by
  rw [normUnguarded, if_neg (sub_ne_zero_of_ne (ne_of_gt h)), sub_self, zero_div]

theorem mem_channelVals (agg : List AggRow) (a : AggRow) (ha : a ∈ agg) (col : AggRow → ℚ) :
    col a ∈ channelVals agg a.canal col :=
  List.mem_map.mpr ⟨a, List.mem_filter.mpr ⟨ha, by simp⟩, rfl⟩

theorem normColD_const (agg : List AggRow) (a : AggRow) (ha : a ∈ agg) (col : AggRow → ℚ)
    (h : ∀ b ∈ agg, b.canal = a.canal → col b = col a) :
    normColD agg a.canal col (col a) = 1 := by
  have hvals : ∀ x ∈ channelVals agg a.canal col, x = col a := by
    intro x hx
    obtain ⟨b, hb, rfl⟩ := List.mem_map.mp hx
    have hbf := List.mem_filter.mp hb
    exact h b hbf.1 (by simpa using hbf.2)
  have hne : channelVals agg a.canal col ≠ [] := by
    intro hnil
    have := mem_channelVals agg a ha col
    rw [hnil] at this
    cases this
  rw [normColD, listMin_const hvals hne, listMax_const hvals hne, normGuarded_degenerate]

theorem normColA_bounds (agg : List AggRow) (a : AggRow) (ha : a ∈ agg) (col : AggRow → ℚ)
    {q : ℚ} (h : normColA agg col (col a) = some q) : 0 ≤ q ∧ q ≤ 1 := by
  have hmem : col a ∈ agg.map col := List.mem_map.mpr ⟨a, ha, rfl⟩
  exact normUnguarded_bounds (listMin_le hmem) (le_listMax hmem) h

theorem normColA_props (agg : List AggRow) (a : AggRow) (col : AggRow → ℚ) :
    (col a = listMax (agg.map col) → listMin (agg.map col) < listMax (agg.map col) →
      normColA agg col (col a) = some 1) ∧
    (col a = listMin (agg.map col) → listMin (agg.map col) < listMax (agg.map col) →
      normColA agg col (col a) = some 0) := by
  refine ⟨fun heq hlt => ?_, fun heq hlt => ?_⟩
  · rw [normColA, heq]
    exact normUnguarded_max hlt
  · rw [normColA, heq]
    exact normUnguarded_min hlt

theorem normColD_degenerate (agg : List AggRow) (c : String) (col : AggRow → ℚ) (v : ℚ)
    (h : listMin (channelVals agg c col) = listMax (channelVals agg c col)) :
    normColD agg c col v = 1 := by
  rw [normColD, h, normGuarded_degenerate]

/-! ### C1: degenerate normalization range -/

/-- C1 counterexample: with exactly one (channel, subcategory) group in
scope — so `max == min` in every metric column — analise_portfolio's
unguarded normalization produces the undefined float value `0.0/0.0`
(`NaN`, embedded as `none`) instead of the claimed `1.0`. -/
theorem C1_counterexample :
    (analiseMetricas [Venda.mk 1 1 "p" "S" 10 1] [Cliente.mk 1 "A"]).map
        (fun m => m.vendaNorm) = [none] ∧ (none : Option ℚ) ≠ some 1 := by
  constructor
  · norm_num +decide [analiseMetricas, aggregateSubcat, subcatKeys, dedupF, aggRowOf,
      groupRowsC, mergeLeft, metricaA_of, normColA, normUnguarded, listMin, listMax,
      scoreA, PESO_POPULARIDADE, PESO_FATURAMENTO, PESO_MARGEM, List.filter, List.filterMap]
  · decide

/-- C1 amended: in `dashboard.py` (guarded normalization, `dashboard.py:120-123`),
whenever every group of a row's normalization scope (its channel) shares
the same value of a metric column, that row's normalized value is exactly
`1.0`, and — the norm being a total rational — no undefined value arises
and nothing raises.  In `analise_portfolio.py` the same situation instead
yields `NaN` (the counterexample). -/
theorem C1_degenerate_collapse (agg : List AggRow) (m : MetricaD) (hm : m ∈ addNormScoreD agg) :
    ((∀ a ∈ agg, a.canal = m.canal → a.skuCount = m.skuCount) → m.skuNorm = 1) ∧
    ((∀ a ∈ agg, a.canal = m.canal → a.cliCount = m.cliCount) → m.cliNorm = 1) ∧
    ((∀ a ∈ agg, a.canal = m.canal → a.venda = m.venda) → m.vendaNorm = 1) ∧
    ((∀ a ∈ agg, a.canal = m.canal → a.margem = m.margem) → m.margemNorm = 1) := by
  obtain ⟨a, ha, rfl⟩ := List.mem_map.mp hm
  refine ⟨fun h => ?_, fun h => ?_, fun h => ?_, fun h => ?_⟩
  · show normColD agg a.canal (fun x => (x.skuCount : ℚ)) ((fun x : AggRow => (x.skuCount : ℚ)) a) = 1
    refine normColD_const agg a ha _ fun b hb hbc => ?_
    exact congrArg (fun n : ℕ => (n : ℚ)) (h b hb hbc)
  · show normColD agg a.canal (fun x => (x.cliCount : ℚ)) ((fun x : AggRow => (x.cliCount : ℚ)) a) = 1
    refine normColD_const agg a ha _ fun b hb hbc => ?_
    exact congrArg (fun n : ℕ => (n : ℚ)) (h b hb hbc)
  · show normColD agg a.canal (fun x => x.venda) ((fun x : AggRow => x.venda) a) = 1
    exact normColD_const agg a ha _ fun b hb hbc => h b hb hbc
  · show normColD agg a.canal (fun x => x.margem) ((fun x : AggRow => x.margem) a) = 1
    exact normColD_const agg a ha _ fun b hb hbc => h b hb hbc

/-- Concrete instance of `C1_degenerate_collapse`: both groups of channel
"A" have one distinct SKU, so the dashboard SKU-count norm collapses
to 1.0 for the "S" row. -/
theorem C1_degenerate_collapse_witness :
    (MetricaD.mk (AggRow.mk "A" "S" 1 2 0 0) 1 1 0 0 (3/10)).skuNorm = 1 :=
  (C1_degenerate_collapse [AggRow.mk "A" "S" 1 2 0 0, AggRow.mk "A" "T" 1 1 10 1]
    (MetricaD.mk (AggRow.mk "A" "S" 1 2 0 0) 1 1 0 0 (3/10))
    (by norm_num +decide [addNormScoreD, metricaD_of, normColD, normGuarded, channelVals,
      listMin, listMax, scoreD, List.filter])).1 (by decide)

/-! ### C7: normalization boundedness -/

theorem normColD_props (agg : List AggRow) (a : AggRow) (ha : a ∈ agg) (col : AggRow → ℚ) :
    (0 ≤ normColD agg a.canal col (col a) ∧ normColD agg a.canal col (col a) ≤ 1) ∧
    (col a = listMax (channelVals agg a.canal col) →
      listMin (channelVals agg a.canal col) < listMax (channelVals agg a.canal col) →
      normColD agg a.canal col (col a) = 1) ∧
    (col a = listMin (channelVals agg a.canal col) →
      listMin (channelVals agg a.canal col) < listMax (channelVals agg a.canal col) →
      normColD agg a.canal col (col a) = 0) := by
  have hv := mem_channelVals agg a ha col
  refine ⟨normGuarded_bounds (listMin_le hv) (le_listMax hv),
    fun heq hlt => ?_, fun heq hlt => ?_⟩
  · rw [normColD, heq]
    exact normGuarded_max hlt
  · rw [normColD, heq]
    exact normGuarded_min hlt

/-- C7 counterexample: two groups with identical mean margins make the
margin column degenerate; analise_portfolio's normalization then yields
`NaN` for every row — a value neither inside `[0, 1]` nor equal to the
`1.0` the degenerate-range policy prescribes. -/
theorem C7_counterexample :
    (analiseMetricas [Venda.mk 1 1 "p" "S" 0 1, Venda.mk 2 2 "q" "T" 10 1]
        [Cliente.mk 1 "A", Cliente.mk 2 "A"]).map (fun m => m.margemNorm) = [none, none] ∧
    (none : Option ℚ) ≠ some 1 := by
  constructor
  · norm_num +decide [analiseMetricas, aggregateSubcat, subcatKeys, dedupF, aggRowOf,
      groupRowsC, mergeLeft, metricaA_of, normColA, normUnguarded, listMin, listMax,
      scoreA, PESO_POPULARIDADE, PESO_FATURAMENTO, PESO_MARGEM, List.filter, List.filterMap]
  · decide

/-- C7 amended: in the dashboard pipeline every normalized value lies in
`[0, 1]`, a group attaining its channel's maximum (resp. minimum) raw
value normalizes to `1.0` (resp. `0.0`) whenever the scope is
nondegenerate, and a degenerate scope collapses to `1.0` (the guard);
in the analise_portfolio pipeline every *defined* normalized value lies in
`[0, 1]`, but a degenerate scope yields `NaN` instead of `1.0` (the
counterexample). -/
theorem C7_normalization_boundedness :
    (∀ (agg : List AggRow) (m : MetricaD), m ∈ addNormScoreD agg →
      (0 ≤ m.skuNorm ∧ m.skuNorm ≤ 1) ∧ (0 ≤ m.cliNorm ∧ m.cliNorm ≤ 1) ∧
      (0 ≤ m.vendaNorm ∧ m.vendaNorm ≤ 1) ∧ (0 ≤ m.margemNorm ∧ m.margemNorm ≤ 1) ∧
      ((m.venda = listMax (channelVals agg m.canal fun x => x.venda) →
          listMin (channelVals agg m.canal fun x => x.venda) <
            listMax (channelVals agg m.canal fun x => x.venda) → m.vendaNorm = 1) ∧
        (m.venda = listMin (channelVals agg m.canal fun x => x.venda) →
          listMin (channelVals agg m.canal fun x => x.venda) <
            listMax (channelVals agg m.canal fun x => x.venda) → m.vendaNorm = 0)) ∧
      ((m.margem = listMax (channelVals agg m.canal fun x => x.margem) →
          listMin (channelVals agg m.canal fun x => x.margem) <
            listMax (channelVals agg m.canal fun x => x.margem) → m.margemNorm = 1) ∧
        (m.margem = listMin (channelVals agg m.canal fun x => x.margem) →
          listMin (channelVals agg m.canal fun x => x.margem) <
            listMax (channelVals agg m.canal fun x => x.margem) → m.margemNorm = 0)) ∧
      (((m.cliCount : ℚ) = listMax (channelVals agg m.canal fun x => (x.cliCount : ℚ)) →
          listMin (channelVals agg m.canal fun x => (x.cliCount : ℚ)) <
            listMax (channelVals agg m.canal fun x => (x.cliCount : ℚ)) → m.cliNorm = 1) ∧
        ((m.cliCount : ℚ) = listMin (channelVals agg m.canal fun x => (x.cliCount : ℚ)) →
          listMin (channelVals agg m.canal fun x => (x.cliCount : ℚ)) <
            listMax (channelVals agg m.canal fun x => (x.cliCount : ℚ)) → m.cliNorm = 0)) ∧
      (((m.skuCount : ℚ) = listMax (channelVals agg m.canal fun x => (x.skuCount : ℚ)) →
          listMin (channelVals agg m.canal fun x => (x.skuCount : ℚ)) <
            listMax (channelVals agg m.canal fun x => (x.skuCount : ℚ)) → m.skuNorm = 1) ∧
        ((m.skuCount : ℚ) = listMin (channelVals agg m.canal fun x => (x.skuCount : ℚ)) →
          listMin (channelVals agg m.canal fun x => (x.skuCount : ℚ)) <
            listMax (channelVals agg m.canal fun x => (x.skuCount : ℚ)) → m.skuNorm = 0)) ∧
      (listMin (channelVals agg m.canal fun x => x.venda) =
        listMax (channelVals agg m.canal fun x => x.venda) → m.vendaNorm = 1) ∧
      (listMin (channelVals agg m.canal fun x => x.margem) =
        listMax (channelVals agg m.canal fun x => x.margem) → m.margemNorm = 1) ∧
      (listMin (channelVals agg m.canal fun x => (x.cliCount : ℚ)) =
        listMax (channelVals agg m.canal fun x => (x.cliCount : ℚ)) → m.cliNorm = 1) ∧
      (listMin (channelVals agg m.canal fun x => (x.skuCount : ℚ)) =
        listMax (channelVals agg m.canal fun x => (x.skuCount : ℚ)) → m.skuNorm = 1)) ∧
    (∀ (vendas : List Venda) (clientes : List Cliente) (m : MetricaA) (q : ℚ),
      m ∈ analiseMetricas vendas clientes →
      (m.skuNorm = some q ∨ m.cliNorm = some q ∨ m.vendaNorm = some q ∨ m.margemNorm = some q) →
      0 ≤ q ∧ q ≤ 1) ∧
    (∀ (vendas : List Venda) (clientes : List Cliente) (m : MetricaA),
      m ∈ analiseMetricas vendas clientes →
      ((m.venda = listMax ((aggregateSubcat (mergeLeft vendas clientes)).map fun x => x.venda) →
          listMin ((aggregateSubcat (mergeLeft vendas clientes)).map fun x => x.venda) <
            listMax ((aggregateSubcat (mergeLeft vendas clientes)).map fun x => x.venda) →
          m.vendaNorm = some 1) ∧
        (m.venda = listMin ((aggregateSubcat (mergeLeft vendas clientes)).map fun x => x.venda) →
          listMin ((aggregateSubcat (mergeLeft vendas clientes)).map fun x => x.venda) <
            listMax ((aggregateSubcat (mergeLeft vendas clientes)).map fun x => x.venda) →
          m.vendaNorm = some 0)) ∧
      ((m.margem = listMax ((aggregateSubcat (mergeLeft vendas clientes)).map fun x => x.margem) →
          listMin ((aggregateSubcat (mergeLeft vendas clientes)).map fun x => x.margem) <
            listMax ((aggregateSubcat (mergeLeft vendas clientes)).map fun x => x.margem) →
          m.margemNorm = some 1) ∧
        (m.margem = listMin ((aggregateSubcat (mergeLeft vendas clientes)).map fun x => x.margem) →
          listMin ((aggregateSubcat (mergeLeft vendas clientes)).map fun x => x.margem) <
            listMax ((aggregateSubcat (mergeLeft vendas clientes)).map fun x => x.margem) →
          m.margemNorm = some 0)) ∧
      (((m.cliCount : ℚ) = listMax ((aggregateSubcat (mergeLeft vendas clientes)).map
            fun x => (x.cliCount : ℚ)) →
          listMin ((aggregateSubcat (mergeLeft vendas clientes)).map fun x => (x.cliCount : ℚ)) <
            listMax ((aggregateSubcat (mergeLeft vendas clientes)).map fun x => (x.cliCount : ℚ)) →
          m.cliNorm = some 1) ∧
        ((m.cliCount : ℚ) = listMin ((aggregateSubcat (mergeLeft vendas clientes)).map
            fun x => (x.cliCount : ℚ)) →
          listMin ((aggregateSubcat (mergeLeft vendas clientes)).map fun x => (x.cliCount : ℚ)) <
            listMax ((aggregateSubcat (mergeLeft vendas clientes)).map fun x => (x.cliCount : ℚ)) →
          m.cliNorm = some 0)) ∧
      (((m.skuCount : ℚ) = listMax ((aggregateSubcat (mergeLeft vendas clientes)).map
            fun x => (x.skuCount : ℚ)) →
          listMin ((aggregateSubcat (mergeLeft vendas clientes)).map fun x => (x.skuCount : ℚ)) <
            listMax ((aggregateSubcat (mergeLeft vendas clientes)).map fun x => (x.skuCount : ℚ)) →
          m.skuNorm = some 1) ∧
        ((m.skuCount : ℚ) = listMin ((aggregateSubcat (mergeLeft vendas clientes)).map
            fun x => (x.skuCount : ℚ)) →
          listMin ((aggregateSubcat (mergeLeft vendas clientes)).map fun x => (x.skuCount : ℚ)) <
            listMax ((aggregateSubcat (mergeLeft vendas clientes)).map fun x => (x.skuCount : ℚ)) →
          m.skuNorm = some 0))) := by
  refine ⟨?_, ?_, ?_⟩
  · intro agg m hm
    obtain ⟨a, ha, rfl⟩ := List.mem_map.mp hm
    have p1 := normColD_props agg a ha fun x => (x.skuCount : ℚ)
    have p2 := normColD_props agg a ha fun x => (x.cliCount : ℚ)
    have p3 := normColD_props agg a ha fun x => x.venda
    have p4 := normColD_props agg a ha fun x => x.margem
    exact ⟨p1.1, p2.1, p3.1, p4.1, ⟨p3.2.1, p3.2.2⟩, ⟨p4.2.1, p4.2.2⟩,
      ⟨p2.2.1, p2.2.2⟩, ⟨p1.2.1, p1.2.2⟩,
      fun hd => normColD_degenerate agg a.canal (fun x => x.venda) a.venda hd,
      fun hd => normColD_degenerate agg a.canal (fun x => x.margem) a.margem hd,
      fun hd => normColD_degenerate agg a.canal (fun x => (x.cliCount : ℚ)) (a.cliCount : ℚ) hd,
      fun hd => normColD_degenerate agg a.canal (fun x => (x.skuCount : ℚ)) (a.skuCount : ℚ) hd⟩
  · intro vendas clientes m q hm hq
    obtain ⟨a, ha, rfl⟩ := List.mem_map.mp hm
    rcases hq with hq | hq | hq | hq
    · exact normColA_bounds _ a ha (fun x => (x.skuCount : ℚ)) hq
    · exact normColA_bounds _ a ha (fun x => (x.cliCount : ℚ)) hq
    · exact normColA_bounds _ a ha (fun x => x.venda) hq
    · exact normColA_bounds _ a ha (fun x => x.margem) hq
  · intro vendas clientes m hm
    obtain ⟨a, ha, rfl⟩ := List.mem_map.mp hm
    have p1 := normColA_props (aggregateSubcat (mergeLeft vendas clientes)) a
      fun x => x.venda
    have p2 := normColA_props (aggregateSubcat (mergeLeft vendas clientes)) a
      fun x => x.margem
    have p3 := normColA_props (aggregateSubcat (mergeLeft vendas clientes)) a
      fun x => (x.cliCount : ℚ)
    have p4 := normColA_props (aggregateSubcat (mergeLeft vendas clientes)) a
      fun x => (x.skuCount : ℚ)
    exact ⟨⟨p1.1, p1.2⟩, ⟨p2.1, p2.2⟩, ⟨p3.1, p3.2⟩, ⟨p4.1, p4.2⟩⟩

/-- Concrete instance of `C7_normalization_boundedness`: dashboard bounds
and degenerate collapse, analise bounds and the global-scope maximum
normalizing to 1. -/
theorem C7_normalization_boundedness_witness :
    (0 ≤ (MetricaD.mk (AggRow.mk "A" "T" 1 1 10 1) 1 0 1 1 (7/10)).vendaNorm ∧
      (MetricaD.mk (AggRow.mk "A" "T" 1 1 10 1) 1 0 1 1 (7/10)).vendaNorm ≤ 1) ∧
    (MetricaD.mk (AggRow.mk "A" "T" 1 1 10 1) 1 0 1 1 (7/10)).skuNorm = 1 ∧
    (0 ≤ (1 : ℚ) ∧ (1 : ℚ) ≤ 1) ∧
    (MetricaA.mk (AggRow.mk "A" "T" 1 1 10 1) none (some 0) (some 1) (some 1)
      (some (7/10))).vendaNorm = some 1 := by
  have hmD : MetricaD.mk (AggRow.mk "A" "T" 1 1 10 1) 1 0 1 1 (7/10) ∈
      addNormScoreD [AggRow.mk "A" "S" 1 2 0 0, AggRow.mk "A" "T" 1 1 10 1] := by
    norm_num +decide [addNormScoreD, metricaD_of, normColD, normGuarded, channelVals,
      listMin, listMax, scoreD, List.filter]
  obtain ⟨b1, b2, b3, b4, e1, e2, e3, e4, d1, d2, d3, d4⟩ :=
    C7_normalization_boundedness.1 [AggRow.mk "A" "S" 1 2 0 0, AggRow.mk "A" "T" 1 1 10 1]
      (MetricaD.mk (AggRow.mk "A" "T" 1 1 10 1) 1 0 1 1 (7/10)) hmD
  have hmA : MetricaA.mk (AggRow.mk "A" "T" 1 1 10 1) none (some 0) (some 1) (some 1)
      (some (7/10)) ∈ analiseMetricas
        [Venda.mk 1 1 "p" "S" 0 0, Venda.mk 2 1 "p" "S" 0 0, Venda.mk 3 2 "q" "T" 10 1]
        [Cliente.mk 1 "A", Cliente.mk 2 "A", Cliente.mk 3 "A"] := by
    norm_num +decide [analiseMetricas, aggregateSubcat, subcatKeys, dedupF, aggRowOf,
      groupRowsC, mergeLeft, metricaA_of, normColA, normUnguarded, listMin, listMax,
      scoreA, PESO_POPULARIDADE, PESO_FATURAMENTO, PESO_MARGEM, List.filter, List.filterMap]
  refine ⟨b3, d4 ?_, ?_, ?_⟩
  · norm_num +decide [channelVals, listMin, listMax, List.filter]
  · exact C7_normalization_boundedness.2.1
      [Venda.mk 1 1 "p" "S" 0 0, Venda.mk 2 1 "p" "S" 0 0, Venda.mk 3 2 "q" "T" 10 1]
      [Cliente.mk 1 "A", Cliente.mk 2 "A", Cliente.mk 3 "A"]
      (MetricaA.mk (AggRow.mk "A" "T" 1 1 10 1) none (some 0) (some 1) (some 1) (some (7/10)))
      1 hmA (Or.inr (Or.inr (Or.inl rfl)))
  · refine (C7_normalization_boundedness.2.2
      [Venda.mk 1 1 "p" "S" 0 0, Venda.mk 2 1 "p" "S" 0 0, Venda.mk 3 2 "q" "T" 10 1]
      [Cliente.mk 1 "A", Cliente.mk 2 "A", Cliente.mk 3 "A"]
      (MetricaA.mk (AggRow.mk "A" "T" 1 1 10 1) none (some 0) (some 1) (some 1) (some (7/10)))
      hmA).1.1 ?_ ?_ <;>
      norm_num +decide [aggregateSubcat, subcatKeys, dedupF, aggRowOf, groupRowsC,
        mergeLeft, listMin, listMax, List.filter, List.filterMap]

/-! ### C2: normalization scope at the channel→subcategory level -/

/-- C2 counterexample: channel "B" holds the groups (B, S3) and (B, S4)
with revenues 4 and 8; channel "A" holds revenues 0 and 10.
analise_portfolio's `calcular_metricas_subcategoria` normalizes (B, S3)'s
revenue to `(4-0)/(10-0) = 2/5`, using the min and max of *all* channels'
groups, whereas channel "B"'s own min/max (4 and 8) would give
`(4-4)/(8-4) = 0`. -/
theorem C2_counterexample :
    ((analiseMetricas
        [Venda.mk 1 1 "p" "S1" 0 0, Venda.mk 2 2 "q" "S2" 10 1,
         Venda.mk 3 3 "r" "S3" 4 0, Venda.mk 4 4 "t" "S4" 8 1]
        [Cliente.mk 1 "A", Cliente.mk 2 "A", Cliente.mk 3 "B", Cliente.mk 4 "B"]).filter
        (fun m => decide (m.canal = "B" ∧ m.sub = "S3"))).map (fun m => m.vendaNorm) =
      [some (2/5)] ∧
    listMin (channelVals (aggregateSubcat (mergeLeft
        [Venda.mk 1 1 "p" "S1" 0 0, Venda.mk 2 2 "q" "S2" 10 1,
         Venda.mk 3 3 "r" "S3" 4 0, Venda.mk 4 4 "t" "S4" 8 1]
        [Cliente.mk 1 "A", Cliente.mk 2 "A", Cliente.mk 3 "B", Cliente.mk 4 "B"]))
        "B" fun x => x.venda) = 4 ∧
    listMax (channelVals (aggregateSubcat (mergeLeft
        [Venda.mk 1 1 "p" "S1" 0 0, Venda.mk 2 2 "q" "S2" 10 1,
         Venda.mk 3 3 "r" "S3" 4 0, Venda.mk 4 4 "t" "S4" 8 1]
        [Cliente.mk 1 "A", Cliente.mk 2 "A", Cliente.mk 3 "B", Cliente.mk 4 "B"]))
        "B" fun x => x.venda) = 8 ∧
    ((2 : ℚ)/5) ≠ ((4 : ℚ) - 4) / (8 - 4) := by
  refine ⟨?_, ?_, ?_, by norm_num⟩ <;>
    norm_num +decide [analiseMetricas, aggregateSubcat, subcatKeys, dedupF, aggRowOf,
      groupRowsC, mergeLeft, metricaA_of, normColA, normUnguarded, channelVals, listMin,
      listMax, scoreA, PESO_POPULARIDADE, PESO_FATURAMENTO, PESO_MARGEM, List.filter,
      List.filterMap]

/-- C2 amended: the per-channel scope holds for `dashboard.py`'s
`calcular_metricas_subcategoria`: the normalized (and scored) rows of a
channel depend only on that channel's aggregated groups, so two aggregated
tables agreeing on a channel produce identical normalized rows for it.
`analise_portfolio.py` instead normalizes over all channels' groups
together (the counterexample). -/
theorem C2_per_channel_scope (agg1 agg2 : List AggRow) (c : String)
    (h : agg1.filter (fun a => decide (a.canal = c)) =
      agg2.filter (fun a => decide (a.canal = c))) :
    (addNormScoreD agg1).filter (fun m => decide (m.canal = c)) =
      (addNormScoreD agg2).filter (fun m => decide (m.canal = c)) := by
  have key : ∀ a : AggRow, a.canal = c → metricaD_of agg1 a = metricaD_of agg2 a := by
    intro a hac
    have hvals : ∀ col : AggRow → ℚ,
        channelVals agg1 a.canal col = channelVals agg2 a.canal col := by
      intro col
      rw [channelVals, channelVals, hac, h]
    simp only [metricaD_of, normColD, hvals]
  have hcomp : ∀ agg : List AggRow,
      ((fun m : MetricaD => decide (m.canal = c)) ∘ metricaD_of agg) =
        fun a : AggRow => decide (a.canal = c) := fun agg => rfl
  rw [addNormScoreD, addNormScoreD, List.filter_map, List.filter_map, hcomp, hcomp, h]
  refine List.map_congr_left fun a ha => ?_
  have hac : a.canal = c := by
    have := (List.mem_filter.mp ha).2
    simpa using this
  exact key a hac

/-- Concrete instance of `C2_per_channel_scope`: the two tables agree on
channel "B" and differ wildly on channel "A"; channel "B"'s normalized
rows coincide. -/
theorem C2_per_channel_scope_witness :
    (addNormScoreD [AggRow.mk "B" "S3" 1 1 4 0, AggRow.mk "B" "S4" 1 1 8 1,
        AggRow.mk "A" "S1" 1 1 0 0]).filter (fun m => decide (m.canal = "B")) =
      (addNormScoreD [AggRow.mk "B" "S3" 1 1 4 0, AggRow.mk "B" "S4" 1 1 8 1,
        AggRow.mk "A" "Z" 5 5 100 1]).filter (fun m => decide (m.canal = "B")) :=
  C2_per_channel_scope
    [AggRow.mk "B" "S3" 1 1 4 0, AggRow.mk "B" "S4" 1 1 8 1, AggRow.mk "A" "S1" 1 1 0 0]
    [AggRow.mk "B" "S3" 1 1 4 0, AggRow.mk "B" "S4" 1 1 8 1, AggRow.mk "A" "Z" 5 5 100 1]
    "B" (by decide)

/-! ### C8: Top-N ordering -/

/-- C8: every Top-N selection — the top-5 subcategories of a channel
(`main`), the top-10 SKUs of a subcategory (`selecionar_top_skus`), and the
dashboard's top-10 SKU table — is ordered by descending composite score:
each kept entry's score is at least the next one's (all kept entries having
a defined score). -/
theorem C8_topn_ordering :
    (∀ (vendas : List Venda) (clientes : List Cliente) (c : String),
      (top5Subcats vendas clientes c).Pairwise
        (fun x y => y.score.getD 0 ≤ x.score.getD 0) ∧
      ∀ m ∈ top5Subcats vendas clientes c, m.score.isSome) ∧
    (∀ (rows : List Enriched) (c s : String),
      (nlargestO 10 (fun m => m.score) (skuMetricasA rows c s)).Pairwise
        (fun x y => y.score.getD 0 ≤ x.score.getD 0) ∧
      ∀ m ∈ nlargestO 10 (fun m => m.score) (skuMetricasA rows c s), m.score.isSome) ∧
    (∀ (rows : List Enriched) (c s : String),
      (topSkusD rows c s).Pairwise fun x y => y.score ≤ x.score) := by
  refine ⟨fun vendas clientes c => ⟨nlargestO_pairwise _ _ _, nlargestO_isSome _ _ _⟩,
    fun rows c s => ⟨nlargestO_pairwise _ _ _, nlargestO_isSome _ _ _⟩,
    fun rows c s => ?_⟩
  exact nlargestO_pairwise 10 (fun r : SkuRowD => some r.score) (skuTableD rows c s)

/-! ### C9: Top-N size invariant -/

/-- C9 counterexample: a subcategory holding exactly one SKU.  Its single
group makes every metric column degenerate, analise_portfolio's unguarded
normalization turns every norm — hence the score — into `NaN`, and pandas
`nlargest` drops `NaN` rows, so `selecionar_top_skus` returns an *empty*
top-10 list although the group set has size 1 (`min(10, 1) = 1`). -/
theorem C9_counterexample :
    topSkusA [Enriched.mk (Venda.mk 1 7 "X" "S" 10 1) (some "A")] "A" "S" = [] ∧
    (aggregateSku (groupRowsC [Enriched.mk (Venda.mk 1 7 "X" "S" 10 1) (some "A")]
      "A" "S")).length = 1 := by
  constructor
  · norm_num +decide [topSkusA, skuMetricasA, aggregateSku, skuAggOf, skuGroupRows,
      groupRowsC, dedupF, skuMetricaA_of, normColSkuA, normUnguarded, listMin, listMax,
      scoreA, nlargestO, sortDesc, insertDesc, List.filter]
  · decide

/-- C9 amended: a Top-N selection returns `min(n, number of groups with a
defined (non-NaN) score)` — in particular an empty group set yields an
empty result rather than an error.  For the dashboard SKU table, whose
guarded pipeline gives every group a defined score, this is the claim's
`min(n, number of groups)` exactly; in analise_portfolio a degenerate
scope can make scores NaN and the result smaller (the counterexample). -/
theorem C9_size_invariant :
    (∀ {α : Type} (n : ℕ) (f : α → Option ℚ) (l : List α),
      (nlargestO n f l).length = min n (l.filter (fun a => (f a).isSome)).length) ∧
    (∀ (rows : List Enriched) (c s : String),
      (topSkusD rows c s).length = min 10 (skuTableD rows c s).length) := by
  refine ⟨fun n f l => nlargestO_length n f l, fun rows c s => ?_⟩
  rw [topSkusD, nlargestO_length]
  simp

/-! ### C5: the composite score formula -/

/-- C5: at all four scoring sites — `analise_portfolio`
`calcular_metricas_subcategoria` and `selecionar_top_skus`, `dashboard`
`calcular_metricas_subcategoria` and `update_skus_table` — the composite
score equals `revenue_norm * 0.4 + customers_norm * 0.3 + margin_norm *
0.3` (the §4.4 spec formula with the same fixed weight triple), the two
analise sites stated for defined (non-NaN) normalized inputs. -/
theorem C5_weighted_score :
    (∀ (vendas : List Venda) (clientes : List Cliente) (m : MetricaA) (c v g : ℚ),
      m ∈ analiseMetricas vendas clientes → m.cliNorm = some c → m.vendaNorm = some v →
      m.margemNorm = some g → m.score = some (compositeFormula v c g)) ∧
    (∀ (vendas : List Venda) (clientes : List Cliente) (m : MetricaD),
      m ∈ dashboardMetricas vendas clientes →
      m.score = compositeFormula m.vendaNorm m.cliNorm m.margemNorm) ∧
    (∀ (rows : List Enriched) (cn sb : String) (m : SkuMetricaA) (c v g : ℚ),
      m ∈ skuMetricasA rows cn sb → m.cliNorm = some c → m.vendaNorm = some v →
      m.margemNorm = some g → m.score = some (compositeFormula v c g)) ∧
    (∀ (rows : List Enriched) (cn sb : String) (m : SkuRowD),
      m ∈ skuTableD rows cn sb →
      m.score = compositeFormula m.vendaNorm m.cliNorm m.margemNorm) := by
  refine ⟨?_, ?_, ?_, ?_⟩
  · intro vendas clientes m c v g hm hc hv hg
    obtain ⟨a, ha, rfl⟩ := List.mem_map.mp hm
    simp only [metricaA_of] at hc hv hg ⊢
    rw [hc, hv, hg]
    simp only [scoreA, compositeFormula, PESO_POPULARIDADE, PESO_FATURAMENTO, PESO_MARGEM,
      Option.some.injEq]
    ring
  · intro vendas clientes m hm
    obtain ⟨a, ha, rfl⟩ := List.mem_map.mp hm
    rfl
  · intro rows cn sb m c v g hm hc hv hg
    obtain ⟨a, ha, rfl⟩ := List.mem_map.mp hm
    simp only [skuMetricaA_of] at hc hv hg ⊢
    rw [hc, hv, hg]
    simp only [scoreA, compositeFormula, PESO_POPULARIDADE, PESO_FATURAMENTO, PESO_MARGEM,
      Option.some.injEq]
    ring
  · intro rows cn sb m hm
    obtain ⟨a, ha, rfl⟩ := List.mem_map.mp hm
    rfl

/-- Concrete instance of `C5_weighted_score` at all four sites. -/
theorem C5_weighted_score_witness :
    (MetricaA.mk (AggRow.mk "A" "T" 1 1 10 1) none (some 0) (some 1) (some 1)
        (some (7/10))).score = some (compositeFormula 1 0 1) ∧
    (MetricaD.mk (AggRow.mk "A" "T" 1 1 10 1) 1 0 1 1 (7/10)).score =
      compositeFormula 1 0 1 ∧
    (SkuMetricaA.mk (SkuAgg.mk 2 "q" 2 20 1) (some 1) (some 1) (some 1) (some 1)).score =
      some (compositeFormula 1 1 1) ∧
    (SkuRowD.mk 2 2 20 1 1 1 1 1).score = compositeFormula 1 1 1 := by
  refine ⟨C5_weighted_score.1
      [Venda.mk 1 1 "p" "S" 0 0, Venda.mk 2 1 "p" "S" 0 0, Venda.mk 3 2 "q" "T" 10 1]
      [Cliente.mk 1 "A", Cliente.mk 2 "A", Cliente.mk 3 "A"] _ 0 1 1 ?_ rfl rfl rfl,
    C5_weighted_score.2.1
      [Venda.mk 1 1 "p" "S" 0 0, Venda.mk 2 1 "p" "S" 0 0, Venda.mk 3 2 "q" "T" 10 1]
      [Cliente.mk 1 "A", Cliente.mk 2 "A", Cliente.mk 3 "A"] _ ?_,
    C5_weighted_score.2.2.1
      [Enriched.mk (Venda.mk 1 1 "p" "S" 0 0) (some "A"),
       Enriched.mk (Venda.mk 1 2 "q" "S" 10 1) (some "A"),
       Enriched.mk (Venda.mk 2 2 "q" "S" 10 1) (some "A")] "A" "S" _ 1 1 1 ?_ rfl rfl rfl,
    C5_weighted_score.2.2.2
      [Enriched.mk (Venda.mk 1 1 "p" "S" 0 0) (some "A"),
       Enriched.mk (Venda.mk 1 2 "q" "S" 10 1) (some "A"),
       Enriched.mk (Venda.mk 2 2 "q" "S" 10 1) (some "A")] "A" "S" _ ?_⟩ <;>
    norm_num +decide [analiseMetricas, dashboardMetricas, addNormScoreD, aggregateSubcat,
      subcatKeys, dedupF, aggRowOf, groupRowsC, mergeLeft, metricaA_of, metricaD_of,
      normColA, normColD, normGuarded, normUnguarded, channelVals, listMin, listMax,
      scoreA, scoreD, PESO_POPULARIDADE, PESO_FATURAMENTO, PESO_MARGEM,
      skuMetricasA, aggregateSku, skuAggOf, skuGroupRows, skuMetricaA_of, normColSkuA,
      skuTableD, aggregateSkuD, skuAggD_of, skuRowD_of, List.filter, List.filterMap]

/-! ### C10: the score never reads the distinct-SKU count -/

/-- The SKU-count-free content of an aggregated group row. -/
def stripSku (a : AggRow) : String × String × ℕ × ℚ × ℚ :=
  (a.canal, a.sub, a.cliCount, a.venda, a.margem)

/-- Key and analise score of a group as a function of its SKU-count-free
data and the three global metric columns. -/
def keyScoreA (cli venda marg : List ℚ) (t : String × String × ℕ × ℚ × ℚ) :
    String × String × Option ℚ :=
  (t.1, t.2.1,
    scoreA (normUnguarded (listMin cli) (listMax cli) ((t.2.2.1 : ℕ) : ℚ))
      (normUnguarded (listMin venda) (listMax venda) t.2.2.2.1)
      (normUnguarded (listMin marg) (listMax marg) t.2.2.2.2))

/-- Key and dashboard score of a group as a function of its SKU-count-free
data and the aggregated table. -/
def keyScoreD (agg : List AggRow) (t : String × String × ℕ × ℚ × ℚ) :
    String × String × ℚ :=
  (t.1, t.2.1,
    scoreD
      (normGuarded (listMin (channelVals agg t.1 fun x => x.venda))
        (listMax (channelVals agg t.1 fun x => x.venda)) t.2.2.2.1)
      (normGuarded (listMin (channelVals agg t.1 fun x => (x.cliCount : ℚ)))
        (listMax (channelVals agg t.1 fun x => (x.cliCount : ℚ))) ((t.2.2.1 : ℕ) : ℚ))
      (normGuarded (listMin (channelVals agg t.1 fun x => x.margem))
        (listMax (channelVals agg t.1 fun x => x.margem)) t.2.2.2.2))

theorem keyScoreA_spec (agg : List AggRow) :
    ((fun m : MetricaA => (m.canal, m.sub, m.score)) ∘ metricaA_of agg) =
      keyScoreA (agg.map fun x => (x.cliCount : ℚ)) (agg.map fun x => x.venda)
        (agg.map fun x => x.margem) ∘ stripSku := by
  funext a
  rfl

theorem keyScoreD_spec (agg : List AggRow) :
    ((fun m : MetricaD => (m.canal, m.sub, m.score)) ∘ metricaD_of agg) =
      keyScoreD agg ∘ stripSku := by
  funext a
  rfl

theorem map_filter_map_congr {α β γ : Type} (f : α → β) (p : β → Bool) (g : β → γ) :
    ∀ l1 l2 : List α, l1.map f = l2.map f →
      ((l1.filter fun a => p (f a)).map fun a => g (f a)) =
        ((l2.filter fun a => p (f a)).map fun a => g (f a)) := by
  intro l1
  induction l1 with
  | nil =>
    intro l2 h
    cases l2 with
    | nil => rfl
    | cons b bs => simp at h
  | cons a as ih =>
    intro l2 h
    cases l2 with
    | nil => simp at h
    | cons b bs =>
      rw [List.map_cons, List.map_cons] at h
      injection h with h1 h2
      by_cases hp : p (f a) = true
      · have hpb : p (f b) = true := h1 ▸ hp
        simp only [List.filter_cons, if_pos hp, if_pos hpb, List.map_cons, h1, ih bs h2]
      · have hpb : ¬p (f b) = true := fun hc => hp (by rw [h1]; exact hc)
        simp only [List.filter_cons, if_neg hp, if_neg hpb]
        exact ih bs h2

/-- C10: the (aggregated and normalized) distinct-SKU-count column never
enters the composite score: any two inputs inducing the same per-group
customer counts, revenue sums and mean margins at the (channel,
subcategory) level — even with different distinct-SKU counts — get
identical scores on every group, in both pipelines. -/
theorem C10_sku_count_independence
    (v1 v2 : List Venda) (c1 c2 : List Cliente)
    (h : (aggregateSubcat (mergeLeft v1 c1)).map stripSku =
      (aggregateSubcat (mergeLeft v2 c2)).map stripSku) :
    (analiseMetricas v1 c1).map (fun m => (m.canal, m.sub, m.score)) =
      (analiseMetricas v2 c2).map (fun m => (m.canal, m.sub, m.score)) ∧
    (dashboardMetricas v1 c1).map (fun m => (m.canal, m.sub, m.score)) =
      (dashboardMetricas v2 c2).map (fun m => (m.canal, m.sub, m.score)) := by
  have hcli : (aggregateSubcat (mergeLeft v1 c1)).map (fun x => ((x.cliCount : ℕ) : ℚ)) =
      (aggregateSubcat (mergeLeft v2 c2)).map (fun x => ((x.cliCount : ℕ) : ℚ)) := by
    have h' := congrArg (List.map fun t : String × String × ℕ × ℚ × ℚ => ((t.2.2.1 : ℕ) : ℚ)) h
    rwa [List.map_map, List.map_map] at h'
  have hven : (aggregateSubcat (mergeLeft v1 c1)).map (fun x => x.venda) =
      (aggregateSubcat (mergeLeft v2 c2)).map (fun x => x.venda) := by
    have h' := congrArg (List.map fun t : String × String × ℕ × ℚ × ℚ => t.2.2.2.1) h
    rwa [List.map_map, List.map_map] at h'
  have hmar : (aggregateSubcat (mergeLeft v1 c1)).map (fun x => x.margem) =
      (aggregateSubcat (mergeLeft v2 c2)).map (fun x => x.margem) := by
    have h' := congrArg (List.map fun t : String × String × ℕ × ℚ × ℚ => t.2.2.2.2) h
    rwa [List.map_map, List.map_map] at h'
  constructor
  · show ((aggregateSubcat (mergeLeft v1 c1)).map
        (metricaA_of (aggregateSubcat (mergeLeft v1 c1)))).map
          (fun m => (m.canal, m.sub, m.score)) =
      ((aggregateSubcat (mergeLeft v2 c2)).map
        (metricaA_of (aggregateSubcat (mergeLeft v2 c2)))).map
          (fun m => (m.canal, m.sub, m.score))
    rw [List.map_map, List.map_map, keyScoreA_spec, keyScoreA_spec, hcli, hven, hmar,
      ← List.map_map, ← List.map_map, h]
  · have hch : ∀ (c : String) (g : String × String × ℕ × ℚ × ℚ → ℚ),
        (((aggregateSubcat (mergeLeft v1 c1)).filter
            fun a => decide ((stripSku a).1 = c)).map fun a => g (stripSku a)) =
          (((aggregateSubcat (mergeLeft v2 c2)).filter
            fun a => decide ((stripSku a).1 = c)).map fun a => g (stripSku a)) :=
      fun c g => map_filter_map_congr stripSku (fun t => decide (t.1 = c)) g _ _ h
    have hK : keyScoreD (aggregateSubcat (mergeLeft v1 c1)) =
        keyScoreD (aggregateSubcat (mergeLeft v2 c2)) := by
      funext t
      have h1 : channelVals (aggregateSubcat (mergeLeft v1 c1)) t.1 (fun x => x.venda) =
          channelVals (aggregateSubcat (mergeLeft v2 c2)) t.1 (fun x => x.venda) :=
        hch t.1 fun u => u.2.2.2.1
      have h2 : channelVals (aggregateSubcat (mergeLeft v1 c1)) t.1
            (fun x => (x.cliCount : ℚ)) =
          channelVals (aggregateSubcat (mergeLeft v2 c2)) t.1 (fun x => (x.cliCount : ℚ)) :=
        hch t.1 fun u => ((u.2.2.1 : ℕ) : ℚ)
      have h3 : channelVals (aggregateSubcat (mergeLeft v1 c1)) t.1 (fun x => x.margem) =
          channelVals (aggregateSubcat (mergeLeft v2 c2)) t.1 (fun x => x.margem) :=
        hch t.1 fun u => u.2.2.2.2
      rw [keyScoreD, keyScoreD, h1, h2, h3]
    show ((aggregateSubcat (mergeLeft v1 c1)).map
        (metricaD_of (aggregateSubcat (mergeLeft v1 c1)))).map
          (fun m => (m.canal, m.sub, m.score)) =
      ((aggregateSubcat (mergeLeft v2 c2)).map
        (metricaD_of (aggregateSubcat (mergeLeft v2 c2)))).map
          (fun m => (m.canal, m.sub, m.score))
    rw [List.map_map, List.map_map, keyScoreD_spec, keyScoreD_spec, hK,
      ← List.map_map, ← List.map_map, h]

/-- Concrete instance of `C10_sku_count_independence`: the two inputs
differ only in that the second sale line carries a second distinct SKU;
customer counts, revenue sums and mean margins agree, and the score maps
coincide. -/
theorem C10_sku_count_independence_witness :
    (analiseMetricas [Venda.mk 1 1 "p" "S" 5 0, Venda.mk 1 1 "p" "S" 5 0]
        [Cliente.mk 1 "A"]).map (fun m => (m.canal, m.sub, m.score)) =
      (analiseMetricas [Venda.mk 1 1 "p" "S" 5 0, Venda.mk 1 2 "q" "S" 5 0]
        [Cliente.mk 1 "A"]).map (fun m => (m.canal, m.sub, m.score)) ∧
    (dashboardMetricas [Venda.mk 1 1 "p" "S" 5 0, Venda.mk 1 1 "p" "S" 5 0]
        [Cliente.mk 1 "A"]).map (fun m => (m.canal, m.sub, m.score)) =
      (dashboardMetricas [Venda.mk 1 1 "p" "S" 5 0, Venda.mk 1 2 "q" "S" 5 0]
        [Cliente.mk 1 "A"]).map (fun m => (m.canal, m.sub, m.score)) :=
  C10_sku_count_independence
    [Venda.mk 1 1 "p" "S" 5 0, Venda.mk 1 1 "p" "S" 5 0]
    [Venda.mk 1 1 "p" "S" 5 0, Venda.mk 1 2 "q" "S" 5 0]
    [Cliente.mk 1 "A"] [Cliente.mk 1 "A"]
    (by norm_num +decide [aggregateSubcat, subcatKeys, dedupF, aggRowOf, groupRowsC,
      mergeLeft, stripSku, List.filter, List.filterMap])

end Zeta
